import Mathlib

/-!
Verification of the perfkit profile-extraction and comparison core.

The definitions below are a shallow embedding of the Go sources:
`internal/pprof/parse.go` (decoded-profile metrics extraction),
`internal/k6/parse.go` (k6 summary extraction), the comparison handler
`handleCompareProfiles` in `internal/server`, and `calculateDelta` in
`internal/ui/static/app.js`.  Go `int64` values are modelled as `Int`
(no claim under scrutiny depends on 64-bit wrap-around), Go/JS floating
point values as `ℚ` (the claims concern exact arithmetic identities,
sign tests and comparisons, which agree with the float semantics on the
small concrete inputs used).  Fallible operations (Go slice indexing
that can panic) are modelled with `Option`.
-/

namespace Perfkit

/-! ## Data model of a decoded pprof profile

`profile.Profile` as produced by the `github.com/google/pprof/profile`
decoder: an ordered list of samples, each with positional values and a
call stack of locations, each location carrying lines that may resolve
to a function name; plus the sample-type descriptors and a duration.
The decoder's `checkValid` guarantees `len(s.Value) == len(SampleType)`
for every sample of a successfully decoded profile; that fact is taken
as a hypothesis where needed, never baked into the types. -/

structure ValueType where
  type : String
  unit : String
deriving DecidableEq, Repr

structure Line where
  function : Option String
deriving DecidableEq, Repr

structure Location where
  line : List Line
deriving DecidableEq, Repr

structure Sample where
  value : List Int
  location : List Location
deriving DecidableEq, Repr

structure Profile where
  sampleType : List ValueType
  sample : List Sample
  durationNanos : Int
deriving DecidableEq, Repr

/-- `models.ProfileType` constants (a string enum in Go). -/
inductive ProfileType where
  | cpu
  | heap
  | goroutine
  | block
  | mutex
  | allocs
  | threadcreate
deriving DecidableEq, Repr

/-- `models.FunctionSample`: one contributor entry `{name, value, percent}`. -/
structure FunctionSample where
  name : String
  value : Int
  percent : ℚ
deriving DecidableEq, Repr

/-- `models.StackSample`: one goroutine-stack contributor `{count, stack}`. -/
structure StackSample where
  count : Int
  stack : List String
deriving DecidableEq, Repr

/-! ## Go map model

The extractors accumulate per-key totals in a Go `map[string]int64` and
then enumerate it with `range`.  The map's *content* is modelled as an
association list in key-insertion order (`updateAdd` is `m[k] += v`);
Go does not guarantee any `range` enumeration order (the runtime
randomizes it), so wherever the enumeration order matters the
enumeration is an explicit parameter constrained to be a permutation of
the content. -/

/-- `m[k] += v` on an insertion-ordered association list. -/
def updateAdd : List (String × Int) → String → Int → List (String × Int)
  | [], k, v => [(k, v)]
  | (k', v') :: rest, k, v =>
      if k' = k then (k', v' + v) :: rest else (k', v') :: updateAdd rest k v

/-- Comparison relation used by `sort.Slice(sorted, func(i, j) { return
sorted[i].value > sorted[j].value })` on `(name, value)` pairs: `a` may
precede `b` exactly when `a`'s value is at least `b`'s. -/
def valueGE (a b : String × Int) : Prop := b.2 ≤ a.2

instance : DecidableRel valueGE := fun a b => inferInstanceAs (Decidable (b.2 ≤ a.2))

instance : IsTotal (String × Int) valueGE := ⟨fun a b => le_total b.2 a.2⟩

instance : IsTrans (String × Int) valueGE := ⟨fun _ _ _ h1 h2 => le_trans h2 h1⟩

/-- Model of `sort.Slice` with the strict comparator `value_i > value_j`:
the stable arrangement into non-increasing value order.  (Go's
`sort.Slice` runs a stable insertion sort below 12 elements; above that
it is some sorted permutation — every property proved below that holds
for all list sizes depends only on sortedness and permutation, and the
concrete inputs are far below 12.) -/
def sortByValueDesc (l : List (String × Int)) : List (String × Int) :=
  l.insertionSort valueGE

/-- `topFunctions(funcValues, total, n)` from `internal/pprof/parse.go`:
sort the enumerated entries by value descending, keep the first `n`,
attach `percent = value/total*100` when `total > 0`, else `0`.
`funcValues` is the `range` enumeration of the Go map. -/
def topFunctions (funcValues : List (String × Int)) (total : Int) (n : Nat) :
    List FunctionSample :=
  ((sortByValueDesc funcValues).take n).map fun kv =>
    { name := kv.1
      value := kv.2
      percent := if 0 < total then (kv.2 : ℚ) / (total : ℚ) * 100 else 0 }

/-! ## Format detector (`detectProfileType`) -/

/-- `detectProfileType` from `internal/pprof/parse.go`: walk the
sample-type descriptors in declared order; the first descriptor whose
type tag matches a signature decides the kind (a `cpu`/`samples` tag
with the wrong unit matches nothing and the scan continues); with no
match, default to CPU. -/
def detectProfileType : List ValueType → ProfileType
  | [] => .cpu
  | st :: rest =>
      if st.type = "cpu" ∨ st.type = "samples" then
        if st.unit = "nanoseconds" ∨ st.unit = "count" then .cpu
        else detectProfileType rest
      else if st.type = "alloc_objects" ∨ st.type = "alloc_space" ∨
          st.type = "inuse_objects" ∨ st.type = "inuse_space" then .heap
      else if st.type = "contentions" ∨ st.type = "delay" then .mutex
      else if st.type = "block" then .block
      else if st.type = "goroutine" then .goroutine
      else detectProfileType rest

/-- The kind a single descriptor matches, if any (the per-descriptor
signature table of `detectProfileType`). -/
def matchKind (st : ValueType) : Option ProfileType :=
  if st.type = "cpu" ∨ st.type = "samples" then
    if st.unit = "nanoseconds" ∨ st.unit = "count" then some .cpu else none
  else if st.type = "alloc_objects" ∨ st.type = "alloc_space" ∨
      st.type = "inuse_objects" ∨ st.type = "inuse_space" then some .heap
  else if st.type = "contentions" ∨ st.type = "delay" then some .mutex
  else if st.type = "block" then some .block
  else if st.type = "goroutine" then some .goroutine
  else none

/-- The detector as the specification sentence words it: scan the
*kinds* in the fixed priority order CPU, heap, mutex, block, goroutine
and return the first kind some descriptor matches; CPU if none.
Declared only to be compared against `detectProfileType`, which scans
*descriptors* in declared order instead. -/
def detectProfileTypeSpec (sts : List ValueType) : ProfileType :=
  if sts.any fun st => decide ((st.type = "cpu" ∨ st.type = "samples") ∧
      (st.unit = "nanoseconds" ∨ st.unit = "count")) then .cpu
  else if sts.any fun st => decide (st.type = "alloc_objects" ∨ st.type = "alloc_space" ∨
      st.type = "inuse_objects" ∨ st.type = "inuse_space") then .heap
  else if sts.any fun st => decide (st.type = "contentions" ∨ st.type = "delay") then .mutex
  else if sts.any fun st => decide (st.type = "block") then .block
  else if sts.any fun st => decide (st.type = "goroutine") then .goroutine
  else .cpu

/-! ## Metric extractors -/

structure CPUMetrics where
  sampleCount : Int
  totalCPUTimeNS : Int
  topFunctions : List FunctionSample
deriving DecidableEq, Repr

structure HeapMetrics where
  allocSize : Int
  allocObjects : Int
  inuseSize : Int
  inuseObjects : Int
  topAllocators : List FunctionSample
deriving DecidableEq, Repr

structure MutexMetrics where
  contentionCount : Int
  contentionTimeNS : Int
  topContenders : List FunctionSample
deriving DecidableEq, Repr

structure BlockMetrics where
  blockingCount : Int
  blockingTimeNS : Int
  topBlockers : List FunctionSample
deriving DecidableEq, Repr

structure GoroutineMetrics where
  goroutineCount : Int
  topStacks : List StackSample
deriving DecidableEq, Repr

/-- The attribution inner loops shared by the CPU/mutex/block extractors:
for every (location, line) pair of the sample's stack whose line has a
function name, add `v` to that name's running total.  A function
occurring several times in one stack is credited once per occurrence. -/
def addStackValue (v : Int) (locs : List Location) (fv : List (String × Int)) :
    List (String × Int) :=
  locs.foldl (fun fv loc =>
    loc.line.foldl (fun fv ln =>
      match ln.function with
      | some name => updateAdd fv name v
      | none => fv) fv) fv

/-- The sample loop of `extractCPUMetrics`: skip samples with no values
or no locations; otherwise add `Value[0]` to the total and attribute it
to every function in the stack. -/
def cpuFold : List Sample → List (String × Int) × Int → List (String × Int) × Int
  | [], acc => acc
  | s :: rest, (fv, total) =>
      if s.value.length = 0 ∨ s.location.length = 0 then cpuFold rest (fv, total)
      else
        let v := s.value.headD 0
        cpuFold rest (addStackValue v s.location fv, total + v)

/-- Content (in insertion order) of the `funcValues` map built by
`extractCPUMetrics`. -/
def cpuFuncValues (p : Profile) : List (String × Int) :=
  (cpuFold p.sample ([], 0)).1

/-- `extractCPUMetrics` with the `range funcValues` enumeration order
made explicit (Go fixes the map content but not its enumeration
order). -/
def extractCPUMetricsEnum (p : Profile) (enum : List (String × Int)) : CPUMetrics :=
  { sampleCount := p.sample.length
    totalCPUTimeNS := (cpuFold p.sample ([], 0)).2
    topFunctions := topFunctions enum (cpuFold p.sample ([], 0)).2 10 }

/-- `extractCPUMetrics` from `internal/pprof/parse.go`, read with the
insertion-order enumeration of `funcValues`. -/
def extractCPUMetrics (p : Profile) : CPUMetrics :=
  extractCPUMetricsEnum p (cpuFuncValues p)

/-- The `alloc_space`/`alloc_objects`/`inuse_space`/`inuse_objects`
value indices found by `extractHeapMetrics`; `-1` when absent, and the
*last* matching descriptor wins, as in the Go loop. -/
structure HeapIdxs where
  allocSpace : Int
  allocObj : Int
  inuseSpace : Int
  inuseObj : Int
deriving DecidableEq, Repr

def heapIdxsAux : List ValueType → Int → HeapIdxs → HeapIdxs
  | [], _, acc => acc
  | st :: rest, i, acc =>
      heapIdxsAux rest (i + 1)
        (if st.type = "alloc_space" then { acc with allocSpace := i }
         else if st.type = "alloc_objects" then { acc with allocObj := i }
         else if st.type = "inuse_space" then { acc with inuseSpace := i }
         else if st.type = "inuse_objects" then { acc with inuseObj := i }
         else acc)

def heapIdxs (sts : List ValueType) : HeapIdxs :=
  heapIdxsAux sts 0 ⟨-1, -1, -1, -1⟩

/-- The guarded read `if idx >= 0 && idx < len(v) { total += v[idx] }`
used for the four heap scalar totals: contributes `0` outside bounds. -/
def guardedVal (v : List Int) (idx : Int) : Int :=
  if 0 ≤ idx ∧ idx < (v.length : Int) then v.getD idx.toNat 0 else 0

/-- One line of the heap attribution loop.  The Go source reads
`sample.Value[allocSpaceIdx]` here guarded only by
`allocSpaceIdx >= 0`, so an index at or beyond `len(sample.Value)`
panics: that is the `none` outcome. -/
def heapLineStep (idx : Int) (v : List Int) (fv : List (String × Int)) (ln : Line) :
    Option (List (String × Int)) :=
  match ln.function with
  | none => some fv
  | some name =>
      if 0 ≤ idx then
        match v.get? idx.toNat with
        | some x => some (updateAdd fv name x)
        | none => none
      else some fv

/-- The heap attribution loops over a sample's locations and lines. -/
def heapStackFold (idx : Int) (v : List Int) (locs : List Location)
    (fv : List (String × Int)) : Option (List (String × Int)) :=
  locs.foldlM (fun fv loc => loc.line.foldlM (heapLineStep idx v) fv) fv

/-- Running accumulator of `extractHeapMetrics`. -/
structure HeapAcc where
  allocSize : Int
  allocObjects : Int
  inuseSize : Int
  inuseObjects : Int
  fv : List (String × Int)
deriving DecidableEq, Repr

/-- One sample of the `extractHeapMetrics` loop: guarded adds into the
four scalar totals, then (for samples with a stack) the attribution
loop. -/
def heapSampleStep (I : HeapIdxs) (acc : HeapAcc) (s : Sample) : Option HeapAcc :=
  let acc :=
    { acc with
      allocSize := acc.allocSize + guardedVal s.value I.allocSpace
      allocObjects := acc.allocObjects + guardedVal s.value I.allocObj
      inuseSize := acc.inuseSize + guardedVal s.value I.inuseSpace
      inuseObjects := acc.inuseObjects + guardedVal s.value I.inuseObj }
  if 0 < s.location.length then
    (heapStackFold I.allocSpace s.value s.location acc.fv).map fun fv =>
      { acc with fv := fv }
  else some acc

/-- `extractHeapMetrics` from `internal/pprof/parse.go`.  `none` models
the index-out-of-range panic of the unguarded
`sample.Value[allocSpaceIdx]` read in the attribution loop. -/
def extractHeapMetrics (p : Profile) : Option HeapMetrics :=
  (p.sample.foldlM (heapSampleStep (heapIdxs p.sampleType)) ⟨0, 0, 0, 0, []⟩).map
    fun acc =>
      { allocSize := acc.allocSize
        allocObjects := acc.allocObjects
        inuseSize := acc.inuseSize
        inuseObjects := acc.inuseObjects
        topAllocators := topFunctions acc.fv acc.allocSize 10 }

/-- Content (in insertion order) of the `funcValues` map built by
`extractHeapMetrics`; empty for a run that panics. -/
def heapFuncValues (p : Profile) : List (String × Int) :=
  ((p.sample.foldlM (heapSampleStep (heapIdxs p.sampleType)) ⟨0, 0, 0, 0, []⟩).map
    HeapAcc.fv).getD []

/-- `extractHeapMetrics` with the `range funcValues` enumeration order
made explicit; `extractHeapMetrics` is its insertion-order
instantiation (`extractHeapMetrics_eq_enum`). -/
def extractHeapMetricsEnum (p : Profile) (enum : List (String × Int)) :
    Option HeapMetrics :=
  (p.sample.foldlM (heapSampleStep (heapIdxs p.sampleType)) ⟨0, 0, 0, 0, []⟩).map
    fun acc =>
      { allocSize := acc.allocSize
        allocObjects := acc.allocObjects
        inuseSize := acc.inuseSize
        inuseObjects := acc.inuseObjects
        topAllocators := topFunctions enum acc.allocSize 10 }

/-- The shared sample loop of `extractMutexMetrics` and
`extractBlockMetrics`: samples with fewer than two values contribute
nothing (to totals or attribution); otherwise `Value[0]` goes to the
count, `Value[1]` to the time and to per-function attribution. -/
def mbFold : List Sample → Int × Int × List (String × Int) →
    Int × Int × List (String × Int)
  | [], acc => acc
  | s :: rest, (cnt, time, fv) =>
      match s.value with
      | v0 :: v1 :: _ => mbFold rest (cnt + v0, time + v1, addStackValue v1 s.location fv)
      | _ => mbFold rest (cnt, time, fv)

/-- `extractMutexMetrics` from `internal/pprof/parse.go`. -/
def extractMutexMetrics (p : Profile) : MutexMetrics :=
  let acc := mbFold p.sample (0, 0, [])
  { contentionCount := acc.1
    contentionTimeNS := acc.2.1
    topContenders := topFunctions acc.2.2 acc.2.1 10 }

/-- `extractBlockMetrics` from `internal/pprof/parse.go`. -/
def extractBlockMetrics (p : Profile) : BlockMetrics :=
  let acc := mbFold p.sample (0, 0, [])
  { blockingCount := acc.1
    blockingTimeNS := acc.2.1
    topBlockers := topFunctions acc.2.2 acc.2.1 10 }

/-- Content (in insertion order) of the `funcValues` map shared by the
mutex and block extractors. -/
def mbFuncValues (p : Profile) : List (String × Int) :=
  (mbFold p.sample (0, 0, [])).2.2

/-- `extractMutexMetrics` with the map enumeration order explicit;
`extractMutexMetrics` is its insertion-order instantiation
(`extractMutexMetrics_eq_enum`). -/
def extractMutexMetricsEnum (p : Profile) (enum : List (String × Int)) : MutexMetrics :=
  let acc := mbFold p.sample (0, 0, [])
  { contentionCount := acc.1
    contentionTimeNS := acc.2.1
    topContenders := topFunctions enum acc.2.1 10 }

/-- `extractBlockMetrics` with the map enumeration order explicit;
`extractBlockMetrics` is its insertion-order instantiation
(`extractBlockMetrics_eq_enum`). -/
def extractBlockMetricsEnum (p : Profile) (enum : List (String × Int)) : BlockMetrics :=
  let acc := mbFold p.sample (0, 0, [])
  { blockingCount := acc.1
    blockingTimeNS := acc.2.1
    topBlockers := topFunctions enum acc.2.1 10 }

/-- The stack of one goroutine sample: every function name in
(location, line) order. -/
def sampleStack (s : Sample) : List String :=
  s.location.foldl (fun st loc =>
    loc.line.foldl (fun st ln =>
      match ln.function with
      | some n => st ++ [n]
      | none => st) st) []

/-- The per-character loop of `splitStack`: split on newlines, dropping
empty runs. -/
def splitStackAux : List Char → String → List String
  | [], current => if current ≠ "" then [current] else []
  | c :: cs, current =>
      if c = '\n' then
        if current ≠ "" then current :: splitStackAux cs "" else splitStackAux cs ""
      else splitStackAux cs (current.push c)

/-- `splitStack` from `internal/pprof/parse.go`. -/
def splitStack (s : String) : List String :=
  splitStackAux s.toList ""

/-- The stack key of a goroutine sample: every name followed by a
newline, concatenated. -/
def stackKey (s : Sample) : String :=
  String.join ((sampleStack s).map fun n => n ++ "\n")

/-- `extractGoroutineMetrics` from `internal/pprof/parse.go`:
count samples per exact stack key, sort descending by count with the
same `sort.Slice` comparator shape, keep the first 10. -/
def extractGoroutineMetrics (p : Profile) : GoroutineMetrics :=
  let counts := p.sample.foldl (fun sc s => updateAdd sc (stackKey s) 1) []
  { goroutineCount := p.sample.length
    topStacks := ((sortByValueDesc counts).take 10).map fun kv =>
      { count := kv.2, stack := splitStack kv.1 } }

/-- Content (in insertion order) of the `stackCounts` map built by
`extractGoroutineMetrics`. -/
def goroutineStackCounts (p : Profile) : List (String × Int) :=
  p.sample.foldl (fun sc s => updateAdd sc (stackKey s) 1) []

/-- `extractGoroutineMetrics` with the `range stackCounts` enumeration
order explicit; `extractGoroutineMetrics` is its insertion-order
instantiation (`extractGoroutineMetrics_eq_enum`). -/
def extractGoroutineMetricsEnum (p : Profile) (enum : List (String × Int)) :
    GoroutineMetrics :=
  { goroutineCount := p.sample.length
    topStacks := ((sortByValueDesc enum).take 10).map fun kv =>
      { count := kv.2, stack := splitStack kv.1 } }

/-! ## `Parse`: the extraction pipeline on a decoded profile

The Go `Parse` first decompresses and decodes the bytes with
`profile.Parse` (external library, the only failure point the spec
admits); everything after the decode is modelled here, taking the
decoded `Profile` as input.  `none` models a run that panics inside an
extractor. -/

inductive Metrics where
  | cpu (m : CPUMetrics)
  | heap (m : HeapMetrics)
  | mutex (m : MutexMetrics)
  | block (m : BlockMetrics)
  | goroutine (m : GoroutineMetrics)
deriving DecidableEq, Repr

structure ParsedProfile where
  type : ProfileType
  durationNS : Int
  totalSamples : Int
  totalValue : Int
  metrics : Option Metrics
deriving DecidableEq, Repr

/-- The totals loop at the end of `Parse`: one increment per sample,
plus `Value[0]` for samples with at least one value. -/
def totalsFold : List Sample → Int × Int → Int × Int
  | [], acc => acc
  | s :: rest, (ts, tv) =>
      totalsFold rest (ts + 1, if 0 < s.value.length then tv + s.value.headD 0 else tv)

/-- `Parse` from `internal/pprof/parse.go`, after the byte-level decode. -/
def Parse (p : Profile) : Option ParsedProfile :=
  let t := detectProfileType p.sampleType
  let m? : Option (Option Metrics) :=
    match t with
    | .cpu => some (some (.cpu (extractCPUMetrics p)))
    | .heap => (extractHeapMetrics p).map fun m => some (.heap m)
    | .mutex => some (some (.mutex (extractMutexMetrics p)))
    | .block => some (some (.block (extractBlockMetrics p)))
    | .goroutine => some (some (.goroutine (extractGoroutineMetrics p)))
    | _ => some none
  m?.map fun m =>
    let tot := totalsFold p.sample (0, 0)
    { type := t
      durationNS := p.durationNanos
      totalSamples := tot.1
      totalValue := tot.2
      metrics := m }

/-! ## k6 summary extraction (`internal/k6/parse.go`)

A k6 summary is modelled after the JSON decoder's output: a mapping
from metric name to a mapping of numeric value fields (a field that is
absent or non-numeric fails the Go `.(float64)` assertion, i.e. is
absent here), plus the root group duration.  Fields keep the source's
zero-value-when-absent behavior. -/

abbrev K6Values := List (String × ℚ)

structure K6Summary where
  metrics : List (String × K6Values)
  rootDuration : ℚ
deriving Repr

structure K6Metrics where
  p50 : ℚ
  p95 : ℚ
  p99 : ℚ
  min : ℚ
  max : ℚ
  mean : ℚ
  rps : ℚ
  totalRequests : Int
  vus : Int
  vusMax : Int
  errorRate : ℚ
  failedRequests : Int
  durationMS : Int
deriving DecidableEq, Repr

/-- The zero value of `models.K6Metrics`. -/
def k6Zero : K6Metrics :=
  ⟨0, 0, 0, 0, 0, 0, 0, 0, 0, 0, 0, 0, 0⟩

structure ParsedK6 where
  metrics : K6Metrics
  durationMS : Int
deriving DecidableEq, Repr

/-- Go's `int64(f)` / `int(f)` conversion from a float: truncation
toward zero. -/
def ratTrunc (q : ℚ) : Int :=
  if 0 ≤ q then ⌊q⌋ else ⌈q⌉

/-- The `if v, ok := vals[key].(float64); ok { … }` pattern: apply
`set` when the field is present, keep `m` otherwise. -/
def k6SetVal (vals : K6Values) (key : String) (m : K6Metrics)
    (set : ℚ → K6Metrics) : K6Metrics :=
  match vals.lookup key with
  | some v => set v
  | none => m

/-- The `http_req_duration` section of `k6.Parse`. -/
def k6ApplyDuration (s : K6Summary) (m : K6Metrics) : K6Metrics :=
  match s.metrics.lookup "http_req_duration" with
  | some vals =>
      let m := k6SetVal vals "p(50)" m fun v => { m with p50 := v }
      let m := k6SetVal vals "p(95)" m fun v => { m with p95 := v }
      let m := k6SetVal vals "p(99)" m fun v => { m with p99 := v }
      let m := k6SetVal vals "min" m fun v => { m with min := v }
      let m := k6SetVal vals "max" m fun v => { m with max := v }
      let m := k6SetVal vals "avg" m fun v => { m with mean := v }
      m
  | none => m

/-- The `http_reqs` section of `k6.Parse`. -/
def k6ApplyReqs (s : K6Summary) (m : K6Metrics) : K6Metrics :=
  match s.metrics.lookup "http_reqs" with
  | some vals =>
      let m := k6SetVal vals "rate" m fun v => { m with rps := v }
      let m := k6SetVal vals "count" m fun v => { m with totalRequests := ratTrunc v }
      m
  | none => m

/-- The `vus` section of `k6.Parse`. -/
def k6ApplyVus (s : K6Summary) (m : K6Metrics) : K6Metrics :=
  match s.metrics.lookup "vus" with
  | some vals => k6SetVal vals "value" m fun v => { m with vus := ratTrunc v }
  | none => m

/-- The `vus_max` section of `k6.Parse`. -/
def k6ApplyVusMax (s : K6Summary) (m : K6Metrics) : K6Metrics :=
  match s.metrics.lookup "vus_max" with
  | some vals => k6SetVal vals "value" m fun v => { m with vusMax := ratTrunc v }
  | none => m

/-- The error-rate section of `k6.Parse`: `http_req_failed` takes
precedence when that metric is present (its `rate` and `count` fields,
each when present); otherwise `checks`, where the `1 - rate` fallback
is the `else` branch of the *passes-present* test. -/
def k6ApplyErrorRate (s : K6Summary) (m : K6Metrics) : K6Metrics :=
  match s.metrics.lookup "http_req_failed" with
  | some vals =>
      let m := k6SetVal vals "rate" m fun r => { m with errorRate := r }
      let m := k6SetVal vals "count" m fun c => { m with failedRequests := ratTrunc c }
      m
  | none =>
      match s.metrics.lookup "checks" with
      | some vals =>
          match vals.lookup "passes" with
          | some passes =>
              match vals.lookup "fails" with
              | some fails =>
                  if 0 < passes + fails then
                    { m with errorRate := fails / (passes + fails) }
                  else m
              | none => m
          | none =>
              match vals.lookup "rate" with
              | some rate => { m with errorRate := 1 - rate }
              | none => m
      | none => m

/-- `k6.Parse` from `internal/k6/parse.go`, after the JSON decode (the
decode is the stated only failure mode and is external): the sections
above applied in source order to the zero-valued record. -/
def k6Parse (s : K6Summary) : ParsedK6 :=
  let durationMS := ratTrunc s.rootDuration
  let m := k6ApplyErrorRate s
    (k6ApplyVusMax s (k6ApplyVus s (k6ApplyReqs s (k6ApplyDuration s k6Zero))))
  { metrics := { m with durationMS := durationMS }, durationMS := durationMS }

/-! ## Delta computation (`calculateDelta` in `internal/ui/static/app.js`) -/

inductive DeltaClass where
  | noData
  | neutral
  | improved
  | regressed
deriving DecidableEq, Repr

/-- What the rendered delta text shows for the percent change: nothing
(missing value or exact-zero delta), the infinity glyph, or a finite
percentage. -/
inductive PctDisplay where
  | notShown
  | infinite
  | value (q : ℚ)
deriving DecidableEq, Repr

/-- `calculateDelta(oldVal, newVal, metric)` from `app.js`: `null`
values give the no-data cell; a zero difference is neutral; otherwise
the percent is `diff/oldVal*100` unless `oldVal` is zero (shown as
infinite), and the classification compares the sign of the difference
against the metric's `lowerIsBetter` flag. -/
def calculateDelta (oldVal newVal : Option ℚ) (lowerIsBetter : Bool) :
    DeltaClass × PctDisplay :=
  match oldVal, newVal with
  | some o, some nv =>
      let diff := nv - o
      if diff = 0 then (.neutral, .notShown)
      else
        let pct : PctDisplay := if o ≠ 0 then .value (diff / o * 100) else .infinite
        let isIncrease := 0 < diff
        let isImproved := if lowerIsBetter then ¬isIncrease else isIncrease
        (if isImproved then .improved else .regressed, pct)
  | _, _ => (.noData, .notShown)

/-! ## Comparison request handling (`handleCompareProfiles` in
`internal/server`)

The durable store is an external collaborator, modelled as a lookup
function from profile id to the stored record (only the record's kind
matters here; `models.ProfileType` is a string in Go, with zero value
`""`).  `Except.error` models the handler writing an HTTP error and
returning without a result. -/

structure StoredProfile where
  profileType : String
deriving DecidableEq, Repr

/-- `strings.Split(s, ",")`: split on every comma; the empty string
yields one empty field, `",,"` yields three. -/
def splitCommaAux : List Char → String → List String
  | [], current => [current]
  | c :: cs, current =>
      if c = ',' then current :: splitCommaAux cs ""
      else splitCommaAux cs (current.push c)

def splitComma (s : String) : List String :=
  splitCommaAux s.toList ""

/-- ASCII part of Go's `unicode.IsSpace` (the ids under study contain
no exotic whitespace). -/
def isSpaceChar (c : Char) : Bool :=
  c = ' ' ∨ c = '\t' ∨ c = '\n' ∨ c = '\r'

/-- `strings.TrimSpace`: drop leading and trailing whitespace. -/
def trimSpace (s : String) : String :=
  ⟨(((s.toList.dropWhile isSpaceChar).reverse.dropWhile isSpaceChar).reverse)⟩

inductive CompareErr where
  | missingIds
  | insufficient
  | notFound (id : String)
  | typeMismatch
deriving DecidableEq, Repr

/-- The `for i, id := range ids` loop of `handleCompareProfiles`:
blank ids (after trimming) are skipped, missing profiles abort with
not-found, the expected kind is taken from index 0 (left at the string
zero value `""` when index 0 is blank), and any later profile of a
different kind aborts with the mismatch error before anything is
returned. -/
def compareLoop (store : String → Option StoredProfile) :
    List String → Nat → String → List StoredProfile →
    Except CompareErr (List StoredProfile)
  | [], _, _, acc => .ok acc
  | idRaw :: rest, i, expected, acc =>
      let id := trimSpace idRaw
      if id = "" then compareLoop store rest (i + 1) expected acc
      else
        match store id with
        | none => .error (.notFound id)
        | some p =>
            if i = 0 then compareLoop store rest (i + 1) p.profileType (acc ++ [p])
            else if p.profileType ≠ expected then .error .typeMismatch
            else compareLoop store rest (i + 1) expected (acc ++ [p])

/-- `handleCompareProfiles`: reject a missing `ids` parameter, reject
fewer than 2 comma-separated entries, then run the validation loop. -/
def handleCompareProfiles (store : String → Option StoredProfile)
    (idsParam : String) : Except CompareErr (List StoredProfile) :=
  if idsParam = "" then .error .missingIds
  else
    let ids := splitComma idsParam
    if ids.length < 2 then .error .insufficient
    else compareLoop store ids 0 "" []

/-! # Helper lemmas -/

theorem detectProfileType_cons (st : ValueType) (rest : List ValueType) :
    detectProfileType (st :: rest) = (matchKind st).getD (detectProfileType rest) := by
  simp only [detectProfileType, matchKind]
  split_ifs <;> rfl

/-! # Claims -/

/-- C3, counterexample: the detector does not scan kinds in the priority
order CPU, heap, mutex, block, goroutine — it scans descriptors in
declared order.  On the descriptor list
`[(contentions, count), (samples, count)]` a CPU signature is present,
so the claimed kind-priority scan yields CPU, but the code returns
mutex from the first descriptor. -/
theorem detectProfileType_counterexample :
    detectProfileType [⟨"contentions", "count"⟩, ⟨"samples", "count"⟩] = .mutex ∧
    detectProfileTypeSpec [⟨"contentions", "count"⟩, ⟨"samples", "count"⟩] = .cpu ∧
    ProfileType.mutex ≠ ProfileType.cpu := by
  refine ⟨by decide, by decide, by decide⟩

/-- C3, amended: the detector walks the sample-type descriptors in
declared order and returns the kind of the first descriptor matching
any signature (CPU for `cpu`/`samples` with unit `nanoseconds`/`count`,
heap for the four allocation tags, mutex for `contentions`/`delay`,
block, goroutine); with no matching descriptor it returns CPU. -/
theorem detectProfileType_first_descriptor :
    (∀ (pre : List ValueType) (st : ValueType) (post : List ValueType) (k : ProfileType),
        (∀ s ∈ pre, matchKind s = none) → matchKind st = some k →
        detectProfileType (pre ++ st :: post) = k) ∧
    (∀ sts : List ValueType, (∀ s ∈ sts, matchKind s = none) →
        detectProfileType sts = .cpu) := by
  constructor
  · intro pre
    induction pre with
    | nil =>
        intro st post k _ hst
        simp [detectProfileType_cons, hst]
    | cons s pre ih =>
        intro st post k hpre hst
        have hs : matchKind s = none := hpre s (List.mem_cons_self _ _)
        rw [List.cons_append, detectProfileType_cons, hs, Option.getD_none]
        exact ih st post k (fun x hx => hpre x (List.mem_cons_of_mem _ hx)) hst
  · intro sts h
    induction sts with
    | nil => rfl
    | cons s rest ih =>
        have hs : matchKind s = none := h s (List.mem_cons_self _ _)
        rw [detectProfileType_cons, hs, Option.getD_none]
        exact ih fun x hx => h x (List.mem_cons_of_mem _ hx)

/-- C3, witness: a `cpu`-tagged descriptor with a non-matching unit is
skipped and the following `delay` descriptor decides mutex. -/
theorem detectProfileType_first_descriptor_witness :
    detectProfileType [⟨"cpu", "bytes"⟩, ⟨"delay", "nanoseconds"⟩] = .mutex :=
  detectProfileType_first_descriptor.1 [⟨"cpu", "bytes"⟩] ⟨"delay", "nanoseconds"⟩ []
    .mutex (by decide) (by decide)

/-- C9: the handler counts comma-separated entries before discarding
blank ones, so the request `ids=",,"` — which supplies no records at
all — passes the fewer-than-2 gate, skips every blank entry, and
returns an empty OK result instead of the insufficient-input error the
spec requires. -/
theorem compare_ids_all_blank_accepted :
    handleCompareProfiles (fun _ => none) ",," = .ok [] := rfl

/-- C5: for defined value pairs, a zero difference is classified
neutral; otherwise the displayed percent change is `delta/prev*100`
when `prev` is nonzero and the infinity marker when `prev` is zero, and
the pair is classified improved exactly when the sign test
`delta < 0` agrees with the metric's `lowerIsBetter` flag, regressed
otherwise. -/
theorem calculateDelta_spec (o nv : ℚ) (lib : Bool) :
    (nv - o = 0 → calculateDelta (some o) (some nv) lib = (.neutral, .notShown)) ∧
    (nv - o ≠ 0 →
      (o ≠ 0 → (calculateDelta (some o) (some nv) lib).2 = .value ((nv - o) / o * 100)) ∧
      (o = 0 → (calculateDelta (some o) (some nv) lib).2 = .infinite) ∧
      ((calculateDelta (some o) (some nv) lib).1 = .improved ↔ ((nv - o < 0) ↔ lib = true)) ∧
      ((calculateDelta (some o) (some nv) lib).1 = .regressed ↔
        ¬((nv - o < 0) ↔ lib = true))) := by
  constructor
  · intro h
    simp [calculateDelta, h]
  · intro h
    have hcd : calculateDelta (some o) (some nv) lib =
        (if (if lib then ¬(0 < nv - o) else (0 < nv - o)) then .improved else .regressed,
          if o ≠ 0 then .value ((nv - o) / o * 100) else .infinite) := by
      simp [calculateDelta, h]
    refine ⟨fun ho => by rw [hcd]; simp [ho], fun ho => by rw [hcd]; simp [ho], ?_, ?_⟩
    · rw [hcd]
      rcases h.lt_or_lt with hd | hd <;> cases lib <;>
        simp [hd, hd.not_lt, not_lt.mpr hd.le, lt_asymm hd]
    · rw [hcd]
      rcases h.lt_or_lt with hd | hd <;> cases lib <;>
        simp [hd, hd.not_lt, not_lt.mpr hd.le, lt_asymm hd]

/-- C5, witness: the spec's directionality example — previous 100,
current 80 on a lower-is-better metric is improved with percent
change −20. -/
theorem calculateDelta_spec_witness :
    (calculateDelta (some 100) (some 80) true).1 = .improved ∧
    (calculateDelta (some 100) (some 80) true).2 = .value (-20) := by
  have h := (calculateDelta_spec 100 80 true).2 (by norm_num)
  refine ⟨h.2.2.1.mpr (by norm_num), ?_⟩
  rw [h.1 (by norm_num)]
  norm_num

theorem totalsFold_eq (l : List Sample) : ∀ a b : Int,
    totalsFold l (a, b) = (a + l.length, b + (l.map fun s => s.value.headD 0).sum) := by
  induction l with
  | nil => intro a b; simp [totalsFold]
  | cons s rest ih =>
      intro a b
      rw [totalsFold, ih]
      simp only [List.map_cons, List.sum_cons, List.length_cons, Prod.mk.injEq]
      constructor
      · push_cast
        ring
      · cases s.value with
        | nil => simp
        | cons v vs =>
            simp only [List.length_cons, List.headD_cons, Nat.zero_lt_succ, if_pos]
            omega

/-- C10: whatever decoded profile `Parse` accepts, the returned record
counts one sample per profile sample and sums each sample's value at
index 0, a sample with no values contributing 0. -/
theorem Parse_totals (p : Profile) (r : ParsedProfile) (h : Parse p = some r) :
    r.totalSamples = (p.sample.length : Int) ∧
    r.totalValue = (p.sample.map fun s => s.value.headD 0).sum := by
  unfold Parse at h
  rw [Option.map_eq_some'] at h
  obtain ⟨m, _, hr⟩ := h
  subst hr
  simp only [totalsFold_eq]
  simp

/-- C10, witness: a CPU-defaulted profile with samples `[3,4]` and `[]`
parses to 2 total samples and total value 3. -/
theorem Parse_totals_witness :
    ({ type := .cpu, durationNS := 0, totalSamples := 2, totalValue := 3,
        metrics := some (.cpu { sampleCount := 2, totalCPUTimeNS := 0, topFunctions := [] }) }
      : ParsedProfile).totalSamples
      = ((Profile.mk [] [⟨[3, 4], []⟩, ⟨[], []⟩] 0).sample.length : Int) ∧
    ({ type := .cpu, durationNS := 0, totalSamples := 2, totalValue := 3,
        metrics := some (.cpu { sampleCount := 2, totalCPUTimeNS := 0, topFunctions := [] }) }
      : ParsedProfile).totalValue
      = ((Profile.mk [] [⟨[3, 4], []⟩, ⟨[], []⟩] 0).sample.map fun s => s.value.headD 0).sum :=
  Parse_totals _ _ (by decide)

/-- C2, counterexample: attribution credits a function once per stack
occurrence, so one sample of value 10 whose two locations both resolve
to `f` yields an attributed value 20 against a grand total of 10 — the
extracted contributor carries `percentOfTotal = 200`, outside
`[0, 100]`. -/
theorem extractCPU_percent_over_100 :
    extractCPUMetrics ⟨[⟨"cpu", "nanoseconds"⟩],
        [⟨[10], [⟨[⟨some "f"⟩]⟩, ⟨[⟨some "f"⟩]⟩]⟩], 0⟩
      = { sampleCount := 1, totalCPUTimeNS := 10, topFunctions := [⟨"f", 20, 200⟩] } ∧
    ¬((200 : ℚ) ≤ 100) := by
  constructor
  · norm_num [extractCPUMetrics, extractCPUMetricsEnum, cpuFuncValues, cpuFold,
      addStackValue, updateAdd, topFunctions, sortByValueDesc, List.insertionSort,
      List.orderedInsert, valueGE]
  · norm_num

/-- C2, amended: a contributor's `percentOfTotal` is exactly 0 whenever
the supplied total is 0 (no division by zero), and otherwise equals
`value/total*100` — which lies in `[0, 100]` whenever the contributor's
value lies between 0 and the total, but can exceed 100 when recursion
credits a function more than the grand total. -/
theorem topFunctions_percent (entries : List (String × Int)) (total : Int) (n : Nat) :
    ∀ e ∈ topFunctions entries total n,
      (total = 0 → e.percent = 0) ∧
      (0 < total → e.percent = (e.value : ℚ) / (total : ℚ) * 100) ∧
      (0 < total → 0 ≤ e.value → e.value ≤ total → 0 ≤ e.percent ∧ e.percent ≤ 100) := by
  intro e he
  simp only [topFunctions, List.mem_map] at he
  obtain ⟨kv, _, rfl⟩ := he
  refine ⟨fun h0 => by simp [h0], fun hpos => by simp [hpos], fun hpos h0 hle => ?_⟩
  simp only [if_pos hpos]
  constructor
  · have hv : (0 : ℚ) ≤ (kv.2 : ℚ) := by exact_mod_cast h0
    have ht : (0 : ℚ) ≤ (total : ℚ) := by exact_mod_cast hpos.le
    exact mul_nonneg (div_nonneg hv ht) (by norm_num)
  · have h1 : (kv.2 : ℚ) / (total : ℚ) ≤ 1 :=
      (div_le_one (by exact_mod_cast hpos)).mpr (by exact_mod_cast hle)
    calc (kv.2 : ℚ) / (total : ℚ) * 100 ≤ 1 * 100 :=
          mul_le_mul_of_nonneg_right h1 (by norm_num)
      _ = 100 := one_mul _

/-- C2, witness: the spec's top-N example entry `(A, 600, 60%)` of the
`{A:600, B:300, C:100}` mapping with total 1000 does lie in bounds. -/
theorem topFunctions_percent_witness :
    (⟨"A", 600, 60⟩ : FunctionSample)
        ∈ topFunctions [("A", 600), ("B", 300), ("C", 100)] 1000 2 ∧
    (0 ≤ (⟨"A", 600, 60⟩ : FunctionSample).percent ∧
      (⟨"A", 600, 60⟩ : FunctionSample).percent ≤ 100) :=
  have hl : topFunctions [("A", 600), ("B", 300), ("C", 100)] 1000 2
      = [⟨"A", 600, 60⟩, ⟨"B", 300, 30⟩] := by
    norm_num [topFunctions, sortByValueDesc, List.insertionSort, List.orderedInsert, valueGE]
  have hmem : (⟨"A", 600, 60⟩ : FunctionSample)
      ∈ topFunctions [("A", 600), ("B", 300), ("C", 100)] 1000 2 := by
    rw [hl]; exact List.mem_cons_self _ _
  ⟨hmem, (topFunctions_percent [("A", 600), ("B", 300), ("C", 100)] 1000 2 _
      hmem).2.2 (by decide) (by decide) (by decide)⟩

theorem length_sortByValueDesc (l : List (String × Int)) :
    (sortByValueDesc l).length = l.length :=
  (List.perm_insertionSort valueGE l).length_eq

theorem sorted_sortByValueDesc (l : List (String × Int)) :
    (sortByValueDesc l).Sorted valueGE :=
  List.sorted_insertionSort valueGE l

theorem sortByValueDesc_perm (l : List (String × Int)) :
    (sortByValueDesc l).Perm l :=
  List.perm_insertionSort valueGE l

theorem sorted_map_snd_sortByValueDesc (l : List (String × Int)) :
    ((sortByValueDesc l).map Prod.snd).Sorted (· ≥ ·) :=
  List.pairwise_map.mpr (sorted_sortByValueDesc l)

theorem map_snd_sortByValueDesc_eq {e1 e2 : List (String × Int)} (h : e1.Perm e2) :
    (sortByValueDesc e1).map Prod.snd = (sortByValueDesc e2).map Prod.snd := by
  haveI : IsAntisymm Int (· ≥ ·) := ⟨fun a b h1 h2 => le_antisymm h2 h1⟩
  exact List.eq_of_perm_of_sorted
    (((sortByValueDesc_perm e1).trans (h.trans (sortByValueDesc_perm e2).symm)).map Prod.snd)
    (sorted_map_snd_sortByValueDesc e1) (sorted_map_snd_sortByValueDesc e2)

theorem topFunctions_map_value_percent (l : List (String × Int)) (total : Int) (n : Nat) :
    ((topFunctions l total n).map fun c => (c.value, c.percent))
      = (((sortByValueDesc l).map Prod.snd).take n).map
          fun v : Int => (v, if 0 < total then (v : ℚ) / (total : ℚ) * 100 else 0) := by
  simp only [topFunctions, List.map_map, ← List.map_take]
  rfl

theorem topFunctions_value_percent_eq {e1 e2 : List (String × Int)} (h : e1.Perm e2)
    (total : Int) (n : Nat) :
    ((topFunctions e1 total n).map fun c => (c.value, c.percent))
      = ((topFunctions e2 total n).map fun c => (c.value, c.percent)) := by
  rw [topFunctions_map_value_percent, topFunctions_map_value_percent,
    map_snd_sortByValueDesc_eq h]

/-- C6, counterexample: `topN`'s tie order follows the map-enumeration
order, which Go neither fixes nor ties to insertion order.  The two
entry lists below enumerate the same mapping `{A:5, B:5}` (with `A`
inserted first); the enumeration starting with `B` puts `B` first among
the exactly-tied entries, so the output is not stable with respect to
first-seen insertion order. -/
theorem topFunctions_tie_counterexample :
    [("A", (5 : Int)), ("B", 5)].Perm [("B", 5), ("A", 5)] ∧
    topFunctions [("B", 5), ("A", 5)] 10 2 = [⟨"B", 5, 50⟩, ⟨"A", 5, 50⟩] ∧
    topFunctions [("A", 5), ("B", 5)] 10 2 ≠ topFunctions [("B", 5), ("A", 5)] 10 2 := by
  refine ⟨by decide, ?_, ?_⟩
  · norm_num [topFunctions, sortByValueDesc, List.insertionSort, List.orderedInsert, valueGE]
  · have h1 : topFunctions [("A", (5 : Int)), ("B", 5)] 10 2
        = [⟨"A", 5, 50⟩, ⟨"B", 5, 50⟩] := by
      norm_num [topFunctions, sortByValueDesc, List.insertionSort, List.orderedInsert, valueGE]
    have h2 : topFunctions [("B", (5 : Int)), ("A", 5)] 10 2
        = [⟨"B", 5, 50⟩, ⟨"A", 5, 50⟩] := by
      norm_num [topFunctions, sortByValueDesc, List.insertionSort, List.orderedInsert, valueGE]
    rw [h1, h2]
    simp

/-- C6, amended: over any enumeration of the attribution mapping,
`topN` returns exactly `min n (number of entries)` contributors, sorted
descending by value, each drawn from the mapping with
`percent = value/total*100` when `total > 0` and `0` otherwise; the
spec's `{A:600, B:300, C:100}` example holds.  (Exact-value ties appear
in enumeration order, which Go randomizes — they are *not* pinned to
first-seen insertion order.) -/
theorem topFunctions_sorted_bounded :
    (∀ (entries : List (String × Int)) (total : Int) (n : Nat),
        (topFunctions entries total n).length = min n entries.length ∧
        ((topFunctions entries total n).map FunctionSample.value).Sorted (· ≥ ·) ∧
        ∀ e ∈ topFunctions entries total n, (e.name, e.value) ∈ entries) ∧
    topFunctions [("A", 600), ("B", 300), ("C", 100)] 1000 2
      = [⟨"A", 600, 60⟩, ⟨"B", 300, 30⟩] := by
  constructor
  · intro entries total n
    refine ⟨?_, ?_, ?_⟩
    · simp [topFunctions, length_sortByValueDesc]
    · have hs : ((sortByValueDesc entries).take n).Pairwise valueGE :=
        (sorted_sortByValueDesc entries).sublist (List.take_sublist n _)
      simp only [topFunctions, List.map_map]
      exact List.pairwise_map.mpr hs
    · intro e he
      simp only [topFunctions, List.mem_map] at he
      obtain ⟨kv, hkv, rfl⟩ := he
      have hm : kv ∈ sortByValueDesc entries := List.mem_of_mem_take hkv
      simpa using (sortByValueDesc_perm entries).mem_iff.mp hm
  · norm_num [topFunctions, sortByValueDesc, List.insertionSort, List.orderedInsert, valueGE]

/-- C6, witness: the `(A, 600)` output entry of the spec example is an
entry of the supplied mapping. -/
theorem topFunctions_sorted_bounded_witness :
    ((⟨"A", 600, 60⟩ : FunctionSample).name, (⟨"A", 600, 60⟩ : FunctionSample).value)
      ∈ [("A", (600 : Int)), ("B", 300), ("C", 100)] :=
  (topFunctions_sorted_bounded.1 [("A", 600), ("B", 300), ("C", 100)] 1000 2).2.2 _
    (topFunctions_sorted_bounded.2 ▸ List.mem_cons_self _ _)

/-- C7, counterexample: extraction is *not* a function of the byte
buffer alone.  On a profile with two tied functions `f` and `g`, the
`funcValues` content is `{f:5, g:5}`; a run whose map enumeration
yields `g` first produces a differently ordered contributor list than
the insertion-order run, and Go randomizes that enumeration between
runs of the same buffer. -/
theorem extractCPU_run_order_counterexample :
    (cpuFuncValues ⟨[⟨"cpu", "nanoseconds"⟩],
        [⟨[5], [⟨[⟨some "f"⟩]⟩]⟩, ⟨[5], [⟨[⟨some "g"⟩]⟩]⟩], 0⟩).Perm
      [("g", 5), ("f", 5)] ∧
    extractCPUMetricsEnum ⟨[⟨"cpu", "nanoseconds"⟩],
        [⟨[5], [⟨[⟨some "f"⟩]⟩]⟩, ⟨[5], [⟨[⟨some "g"⟩]⟩]⟩], 0⟩
      (cpuFuncValues ⟨[⟨"cpu", "nanoseconds"⟩],
        [⟨[5], [⟨[⟨some "f"⟩]⟩]⟩, ⟨[5], [⟨[⟨some "g"⟩]⟩]⟩], 0⟩)
      ≠ extractCPUMetricsEnum ⟨[⟨"cpu", "nanoseconds"⟩],
        [⟨[5], [⟨[⟨some "f"⟩]⟩]⟩, ⟨[5], [⟨[⟨some "g"⟩]⟩]⟩], 0⟩
      [("g", 5), ("f", 5)] := by
  constructor
  · decide
  · have h1 : extractCPUMetricsEnum ⟨[⟨"cpu", "nanoseconds"⟩],
        [⟨[5], [⟨[⟨some "f"⟩]⟩]⟩, ⟨[5], [⟨[⟨some "g"⟩]⟩]⟩], 0⟩
        (cpuFuncValues ⟨[⟨"cpu", "nanoseconds"⟩],
          [⟨[5], [⟨[⟨some "f"⟩]⟩]⟩, ⟨[5], [⟨[⟨some "g"⟩]⟩]⟩], 0⟩)
        = { sampleCount := 2, totalCPUTimeNS := 10,
            topFunctions := [⟨"f", 5, 50⟩, ⟨"g", 5, 50⟩] } := by
      norm_num [extractCPUMetricsEnum, cpuFuncValues, cpuFold, addStackValue, updateAdd,
        topFunctions, sortByValueDesc, List.insertionSort, List.orderedInsert, valueGE]
    have h2 : extractCPUMetricsEnum ⟨[⟨"cpu", "nanoseconds"⟩],
        [⟨[5], [⟨[⟨some "f"⟩]⟩]⟩, ⟨[5], [⟨[⟨some "g"⟩]⟩]⟩], 0⟩ [("g", 5), ("f", 5)]
        = { sampleCount := 2, totalCPUTimeNS := 10,
            topFunctions := [⟨"g", 5, 50⟩, ⟨"f", 5, 50⟩] } := by
      norm_num [extractCPUMetricsEnum, cpuFuncValues, cpuFold, addStackValue, updateAdd,
        topFunctions, sortByValueDesc, List.insertionSort, List.orderedInsert, valueGE]
    rw [h1, h2]
    simp

theorem extractCPUMetrics_eq_enum (p : Profile) :
    extractCPUMetrics p = extractCPUMetricsEnum p (cpuFuncValues p) := rfl

theorem extractHeapMetrics_eq_enum (p : Profile) :
    extractHeapMetrics p = extractHeapMetricsEnum p (heapFuncValues p) := by
  cases hf : p.sample.foldlM (heapSampleStep (heapIdxs p.sampleType)) ⟨0, 0, 0, 0, []⟩ with
  | none => simp [extractHeapMetrics, extractHeapMetricsEnum, hf]
  | some acc => simp [extractHeapMetrics, extractHeapMetricsEnum, heapFuncValues, hf]

theorem extractMutexMetrics_eq_enum (p : Profile) :
    extractMutexMetrics p = extractMutexMetricsEnum p (mbFuncValues p) := rfl

theorem extractBlockMetrics_eq_enum (p : Profile) :
    extractBlockMetrics p = extractBlockMetricsEnum p (mbFuncValues p) := rfl

theorem extractGoroutineMetrics_eq_enum (p : Profile) :
    extractGoroutineMetrics p = extractGoroutineMetricsEnum p (goroutineStackCounts p) := rfl

theorem topStacks_map_count (p : Profile) (enum : List (String × Int)) :
    ((extractGoroutineMetricsEnum p enum).topStacks.map StackSample.count)
      = ((sortByValueDesc enum).map Prod.snd).take 10 := by
  simp only [extractGoroutineMetricsEnum, List.map_map, ← List.map_take]
  rfl

/-- C7, amended: for every profile kind, extraction of the same decoded
buffer is deterministic in everything except the arrangement of
exact-value ties.  Across any two enumerations of the same accumulated
map content, the CPU, heap, mutex and block records agree on every
scalar field and on the (value, percent) sequence of their contributor
lists, and the goroutine record agrees on its count and on the count
sequence of its top stacks — only the names or stacks attached to
exactly tied values can trade places with Go's randomized map
iteration.  (Each plain extractor is the insertion-order instantiation
of its `…Enum` form, by the `…_eq_enum` lemmas above.) -/
theorem extract_deterministic_upto_ties (p : Profile) (e1 e2 : List (String × Int))
    (h : e1.Perm e2) :
    ((extractCPUMetricsEnum p e1).sampleCount = (extractCPUMetricsEnum p e2).sampleCount ∧
      (extractCPUMetricsEnum p e1).totalCPUTimeNS
        = (extractCPUMetricsEnum p e2).totalCPUTimeNS ∧
      ((extractCPUMetricsEnum p e1).topFunctions.map fun c => (c.value, c.percent))
        = ((extractCPUMetricsEnum p e2).topFunctions.map fun c => (c.value, c.percent))) ∧
    ((extractHeapMetricsEnum p e1).map fun m =>
        (m.allocSize, m.allocObjects, m.inuseSize, m.inuseObjects,
          m.topAllocators.map fun c => (c.value, c.percent)))
      = ((extractHeapMetricsEnum p e2).map fun m =>
        (m.allocSize, m.allocObjects, m.inuseSize, m.inuseObjects,
          m.topAllocators.map fun c => (c.value, c.percent))) ∧
    ((extractMutexMetricsEnum p e1).contentionCount
        = (extractMutexMetricsEnum p e2).contentionCount ∧
      (extractMutexMetricsEnum p e1).contentionTimeNS
        = (extractMutexMetricsEnum p e2).contentionTimeNS ∧
      ((extractMutexMetricsEnum p e1).topContenders.map fun c => (c.value, c.percent))
        = ((extractMutexMetricsEnum p e2).topContenders.map fun c => (c.value, c.percent))) ∧
    ((extractBlockMetricsEnum p e1).blockingCount
        = (extractBlockMetricsEnum p e2).blockingCount ∧
      (extractBlockMetricsEnum p e1).blockingTimeNS
        = (extractBlockMetricsEnum p e2).blockingTimeNS ∧
      ((extractBlockMetricsEnum p e1).topBlockers.map fun c => (c.value, c.percent))
        = ((extractBlockMetricsEnum p e2).topBlockers.map fun c => (c.value, c.percent))) ∧
    ((extractGoroutineMetricsEnum p e1).goroutineCount
        = (extractGoroutineMetricsEnum p e2).goroutineCount ∧
      ((extractGoroutineMetricsEnum p e1).topStacks.map StackSample.count)
        = ((extractGoroutineMetricsEnum p e2).topStacks.map StackSample.count)) := by
  refine ⟨⟨rfl, rfl, topFunctions_value_percent_eq h _ 10⟩, ?_,
    ⟨rfl, rfl, topFunctions_value_percent_eq h _ 10⟩,
    ⟨rfl, rfl, topFunctions_value_percent_eq h _ 10⟩,
    ⟨rfl, ?_⟩⟩
  · cases hf : p.sample.foldlM (heapSampleStep (heapIdxs p.sampleType)) ⟨0, 0, 0, 0, []⟩ with
    | none => simp [extractHeapMetricsEnum, hf]
    | some acc => simp [extractHeapMetricsEnum, hf, topFunctions_value_percent_eq h]
  · rw [topStacks_map_count, topStacks_map_count, map_snd_sortByValueDesc_eq h]

/-- C7, witness: the two tied enumerations of the counterexample still
agree on the (value, percent) sequence of the CPU contributor list. -/
theorem extract_deterministic_upto_ties_witness :
    ((extractCPUMetricsEnum ⟨[⟨"cpu", "nanoseconds"⟩],
        [⟨[5], [⟨[⟨some "f"⟩]⟩]⟩, ⟨[5], [⟨[⟨some "g"⟩]⟩]⟩], 0⟩
        [("f", 5), ("g", 5)]).topFunctions.map fun c => (c.value, c.percent))
      = ((extractCPUMetricsEnum ⟨[⟨"cpu", "nanoseconds"⟩],
        [⟨[5], [⟨[⟨some "f"⟩]⟩]⟩, ⟨[5], [⟨[⟨some "g"⟩]⟩]⟩], 0⟩
        [("g", 5), ("f", 5)]).topFunctions.map fun c => (c.value, c.percent)) :=
  (extract_deterministic_upto_ties _ _ _ (by decide)).1.2.2

theorem k6ApplyErrorRate_spec (s : K6Summary) (m : K6Metrics) :
    (∀ vals, s.metrics.lookup "http_req_failed" = some vals →
      (∀ r, vals.lookup "rate" = some r → (k6ApplyErrorRate s m).errorRate = r) ∧
      (∀ c, vals.lookup "count" = some c →
        (k6ApplyErrorRate s m).failedRequests = ratTrunc c)) ∧
    (s.metrics.lookup "http_req_failed" = none →
      ∀ vals, s.metrics.lookup "checks" = some vals →
        (∀ pv fv, vals.lookup "passes" = some pv → vals.lookup "fails" = some fv →
          0 < pv + fv → (k6ApplyErrorRate s m).errorRate = fv / (pv + fv)) ∧
        (vals.lookup "passes" = none → ∀ r, vals.lookup "rate" = some r →
          (k6ApplyErrorRate s m).errorRate = 1 - r)) := by
  constructor
  · intro vals hv
    constructor
    · intro r hr
      cases hc : vals.lookup "count" <;>
        simp [k6ApplyErrorRate, hv, k6SetVal, hr, hc]
    · intro c hc
      cases hr : vals.lookup "rate" <;>
        simp [k6ApplyErrorRate, hv, k6SetVal, hr, hc]
  · intro hnone vals hv
    constructor
    · intro pv fv hp hf hpos
      simp [k6ApplyErrorRate, hnone, hv, hp, hf, hpos]
    · intro hp r hr
      simp [k6ApplyErrorRate, hnone, hv, hp, hr]

/-- C4, counterexample: a summary whose `checks` metric carries
`passes` and `rate` but no `fails` leaves the error rate at its zero
value — the `1 - rate` fallback is unreachable once `passes` is
present, where the claim demands `ErrorRate = 1 - 0.9 = 0.1`. -/
theorem k6_checks_passes_only_counterexample :
    (k6Parse ⟨[("checks", [("passes", 90), ("rate", 9 / 10)])], 0⟩).metrics.errorRate = 0 ∧
    (1 - 9 / 10 : ℚ) ≠ 0 :=
  ⟨rfl, by norm_num⟩

/-- C4, amended: when `http_req_failed` is present, its `rate` becomes
the error rate and its `count` the failed-request count; otherwise with
`checks` present, `ErrorRate = fails/(passes+fails)` when *both* counts
are present and positive in sum, while the `1 - checks.rate` fallback
applies only when `passes` is absent (a `checks` value with `passes`
but no `fails` leaves the error rate unchanged). -/
theorem k6_errorRate_precedence (s : K6Summary) :
    (∀ vals, s.metrics.lookup "http_req_failed" = some vals →
      (∀ r, vals.lookup "rate" = some r → (k6Parse s).metrics.errorRate = r) ∧
      (∀ c, vals.lookup "count" = some c →
        (k6Parse s).metrics.failedRequests = ratTrunc c)) ∧
    (s.metrics.lookup "http_req_failed" = none →
      ∀ vals, s.metrics.lookup "checks" = some vals →
        (∀ pv fv, vals.lookup "passes" = some pv → vals.lookup "fails" = some fv →
          0 < pv + fv → (k6Parse s).metrics.errorRate = fv / (pv + fv)) ∧
        (vals.lookup "passes" = none → ∀ r, vals.lookup "rate" = some r →
          (k6Parse s).metrics.errorRate = 1 - r)) :=
  k6ApplyErrorRate_spec s
    (k6ApplyVusMax s (k6ApplyVus s (k6ApplyReqs s (k6ApplyDuration s k6Zero))))

/-- C4, witness: the spec's two examples — `http_req_failed.rate=0.05`
wins over a fully populated `checks`, and with only
`checks.passes=90, fails=10` the error rate is `10/100`. -/
theorem k6_errorRate_precedence_witness :
    (k6Parse ⟨[("http_req_failed", [("rate", 1 / 20), ("count", 5)]),
        ("checks", [("passes", 90), ("fails", 10)])], 0⟩).metrics.errorRate = 1 / 20 ∧
    (k6Parse ⟨[("checks", [("passes", 90), ("fails", 10)])], 0⟩).metrics.errorRate
      = 10 / (90 + 10) :=
  ⟨((k6_errorRate_precedence ⟨[("http_req_failed", [("rate", 1 / 20), ("count", 5)]),
        ("checks", [("passes", 90), ("fails", 10)])], 0⟩).1
      [("rate", 1 / 20), ("count", 5)] rfl).1 (1 / 20) rfl,
    ((k6_errorRate_precedence ⟨[("checks", [("passes", 90), ("fails", 10)])], 0⟩).2 rfl
      [("passes", 90), ("fails", 10)] rfl).1 90 10 rfl rfl (by norm_num)⟩

theorem compareLoop_cons_blank (store : String → Option StoredProfile)
    (idR : String) (rest : List String) (i : Nat) (expected : String)
    (acc : List StoredProfile) (h : trimSpace idR = "") :
    compareLoop store (idR :: rest) i expected acc
      = compareLoop store rest (i + 1) expected acc := by
  simp [compareLoop, h]

theorem compareLoop_cons_found (store : String → Option StoredProfile)
    (idR : String) (rest : List String) (i : Nat) (expected : String)
    (acc : List StoredProfile) (p : StoredProfile) (hb : trimSpace idR ≠ "")
    (hp : store (trimSpace idR) = some p) (hi : i ≠ 0) :
    compareLoop store (idR :: rest) i expected acc
      = if p.profileType ≠ expected then .error .typeMismatch
        else compareLoop store rest (i + 1) expected (acc ++ [p]) := by
  simp [compareLoop, hb, hp, hi]

theorem compareLoop_cons_found_zero (store : String → Option StoredProfile)
    (idR : String) (rest : List String) (expected : String)
    (acc : List StoredProfile) (p : StoredProfile) (hb : trimSpace idR ≠ "")
    (hp : store (trimSpace idR) = some p) :
    compareLoop store (idR :: rest) 0 expected acc
      = compareLoop store rest 1 p.profileType (acc ++ [p]) := by
  simp [compareLoop, hb, hp]

theorem compareLoop_mismatch (store : String → Option StoredProfile)
    (l : List String) : ∀ (i : Nat) (expected : String) (acc : List StoredProfile),
      i ≠ 0 →
      (∀ id ∈ l, trimSpace id ≠ "" → (store (trimSpace id)).isSome) →
      (∃ a ∈ l, trimSpace a ≠ "" ∧ ∃ pa, store (trimSpace a) = some pa ∧
        pa.profileType ≠ expected) →
      compareLoop store l i expected acc = .error .typeMismatch := by
  induction l with
  | nil =>
      intro i expected acc _ _ hx
      simp at hx
  | cons idR rest ih =>
      intro i expected acc hi hf hx
      by_cases hb : trimSpace idR = ""
      · rw [compareLoop_cons_blank store idR rest i expected acc hb]
        refine ih (i + 1) expected acc (by omega) ?_ ?_
        · intro x hxm hxb
          exact hf x (List.mem_cons_of_mem _ hxm) hxb
        · obtain ⟨a, ha, hab, pa, hpa, hne⟩ := hx
          rcases List.mem_cons.mp ha with rfl | ha'
          · exact absurd hb hab
          · exact ⟨a, ha', hab, pa, hpa, hne⟩
      · have hs := hf idR (List.mem_cons_self _ _) hb
        obtain ⟨p, hp⟩ := Option.isSome_iff_exists.mp hs
        rw [compareLoop_cons_found store idR rest i expected acc p hb hp hi]
        by_cases hmis : p.profileType ≠ expected
        · rw [if_pos hmis]
        · rw [if_neg hmis]
          push_neg at hmis
          refine ih (i + 1) expected (acc ++ [p]) (by omega) ?_ ?_
          · intro x hxm hxb
            exact hf x (List.mem_cons_of_mem _ hxm) hxb
          · obtain ⟨a, ha, hab, pa, hpa, hne⟩ := hx
            rcases List.mem_cons.mp ha with rfl | ha'
            · rw [hp] at hpa
              injection hpa with h
              exact absurd (by rw [← h]; exact hmis) hne
            · exact ⟨a, ha', hab, pa, hpa, hne⟩

/-- C8: for any batch of ids naming stored records of non-blank kinds,
if two of the named records carry different kinds then the comparison
handler answers with the kind-mismatch error — no partial comparison
result is produced, however many ids were supplied. -/
theorem compare_mixed_kinds_rejected (store : String → Option StoredProfile)
    (idsParam : String)
    (hlen : 2 ≤ (splitComma idsParam).length)
    (hfound : ∀ id ∈ splitComma idsParam, trimSpace id ≠ "" →
      (store (trimSpace id)).isSome)
    (htype : ∀ id ∈ splitComma idsParam,
      (store (trimSpace id)).map StoredProfile.profileType ≠ some "")
    (hmix : ∃ a ∈ splitComma idsParam, ∃ b ∈ splitComma idsParam,
      trimSpace a ≠ "" ∧ trimSpace b ≠ "" ∧
      ∃ pa pb, store (trimSpace a) = some pa ∧ store (trimSpace b) = some pb ∧
        pa.profileType ≠ pb.profileType) :
    handleCompareProfiles store idsParam = .error .typeMismatch := by
  have hne : idsParam ≠ "" := by
    intro h
    rw [h] at hlen
    simp [splitComma, splitCommaAux] at hlen
  have hlt : ¬(splitComma idsParam).length < 2 := by omega
  simp only [handleCompareProfiles, if_neg hne, if_neg hlt]
  obtain ⟨ids0, rest, hids⟩ : ∃ x xs, splitComma idsParam = x :: xs := by
    cases hsp : splitComma idsParam with
    | nil => rw [hsp] at hlen; simp at hlen
    | cons x xs => exact ⟨x, xs, rfl⟩
  rw [hids] at hfound htype hmix ⊢
  by_cases hb : trimSpace ids0 = ""
  · rw [compareLoop_cons_blank store ids0 rest 0 "" [] hb]
    refine compareLoop_mismatch store rest 1 "" [] (by omega) ?_ ?_
    · intro x hxm hxb
      exact hfound x (List.mem_cons_of_mem _ hxm) hxb
    · obtain ⟨a, ha, b, hbm, hab, hbb, pa, pb, hpa, hpb, hne2⟩ := hmix
      have ha' : a ∈ rest := by
        rcases List.mem_cons.mp ha with rfl | h'
        · exact absurd hb hab
        · exact h'
      refine ⟨a, ha', hab, pa, hpa, ?_⟩
      have ht := htype a ha
      rw [hpa] at ht
      simpa using ht
  · have hs := hfound ids0 (List.mem_cons_self _ _) hb
    obtain ⟨p0, hp0⟩ := Option.isSome_iff_exists.mp hs
    rw [compareLoop_cons_found_zero store ids0 rest "" [] p0 hb hp0]
    refine compareLoop_mismatch store rest 1 p0.profileType _ (by omega) ?_ ?_
    · intro x hxm hxb
      exact hfound x (List.mem_cons_of_mem _ hxm) hxb
    · obtain ⟨a, ha, b, hbm, hab, hbb, pa, pb, hpa, hpb, hne2⟩ := hmix
      by_cases hpa0 : pa.profileType = p0.profileType
      · have hbn : pb.profileType ≠ p0.profileType := by
          intro h
          exact hne2 (hpa0.trans h.symm)
        have hb' : b ∈ rest := by
          rcases List.mem_cons.mp hbm with rfl | h'
          · rw [hp0] at hpb
            injection hpb with h
            exact absurd (by rw [← h]) hbn
          · exact h'
        exact ⟨b, hb', hbb, pb, hpb, hbn⟩
      · have ha' : a ∈ rest := by
          rcases List.mem_cons.mp ha with rfl | h'
          · rw [hp0] at hpa
            injection hpa with h
            exact absurd (by rw [← h]) hpa0
          · exact h'
        exact ⟨a, ha', hab, pa, hpa, hpa0⟩

/-- C8, witness: comparing a stored CPU profile `a` against a stored
heap profile `b` is rejected with the kind-mismatch error. -/
theorem compare_mixed_kinds_rejected_witness :
    handleCompareProfiles
      (fun id => if id = "a" then some ⟨"cpu"⟩ else if id = "b" then some ⟨"heap"⟩ else none)
      "a,b" = .error .typeMismatch :=
  compare_mixed_kinds_rejected _ "a,b" (by decide) (by decide) (by decide)
    ⟨"a", by decide, "b", by decide, by decide, by decide, ⟨"cpu"⟩, ⟨"heap"⟩,
      by decide, by decide, by decide⟩

theorem heapIdxsAux_allocSpace_lt (l : List ValueType) :
    ∀ (i : Int) (acc : HeapIdxs), acc.allocSpace < i →
      (heapIdxsAux l i acc).allocSpace < i + l.length := by
  induction l with
  | nil =>
      intro i acc h
      simpa [heapIdxsAux] using h
  | cons st rest ih =>
      intro i acc h
      rw [heapIdxsAux]
      have hstep : (if st.type = "alloc_space" then { acc with allocSpace := i }
          else if st.type = "alloc_objects" then { acc with allocObj := i }
          else if st.type = "inuse_space" then { acc with inuseSpace := i }
          else if st.type = "inuse_objects" then { acc with inuseObj := i }
          else acc).allocSpace < i + 1 := by
        split_ifs <;> (try simp) <;> omega
      have h2 := ih (i + 1) _ hstep
      rw [List.length_cons]
      push_cast at h2 ⊢
      omega

theorem heapIdxs_allocSpace_lt (sts : List ValueType) :
    (heapIdxs sts).allocSpace < (sts.length : Int) := by
  have h := heapIdxsAux_allocSpace_lt sts 0 ⟨-1, -1, -1, -1⟩ (by norm_num)
  simpa [heapIdxs] using h

theorem heapLinesFold_isSome (idx : Int) (v : List Int)
    (hidx : idx < 0 ∨ idx.toNat < v.length) :
    ∀ (lines : List Line) (fv : List (String × Int)),
      (lines.foldlM (heapLineStep idx v) fv).isSome := by
  intro lines
  induction lines with
  | nil => intro fv; simp
  | cons ln rest ih =>
      intro fv
      rw [List.foldlM_cons]
      cases hfn : ln.function with
      | none =>
          simp only [heapLineStep, hfn, Option.bind_eq_bind, Option.some_bind]
          exact ih fv
      | some name =>
          by_cases h0 : 0 ≤ idx
          · have hlt : idx.toNat < v.length := by
              rcases hidx with h | h
              · omega
              · exact h
            obtain ⟨x, hx⟩ : ∃ x, v.get? idx.toNat = some x := by
              cases hg : v.get? idx.toNat with
              | none => exact absurd (List.get?_eq_none.mp hg) (by omega)
              | some x => exact ⟨x, rfl⟩
            simp only [heapLineStep, hfn, h0, if_pos, hx, Option.bind_eq_bind,
              Option.some_bind]
            exact ih _
          · simp only [heapLineStep, hfn, h0, if_neg, Option.bind_eq_bind,
              Option.some_bind]
            exact ih fv

theorem heapStackFold_isSome (idx : Int) (v : List Int)
    (hidx : idx < 0 ∨ idx.toNat < v.length) :
    ∀ (locs : List Location) (fv : List (String × Int)),
      (heapStackFold idx v locs fv).isSome := by
  intro locs
  induction locs with
  | nil => intro fv; simp [heapStackFold]
  | cons loc rest ih =>
      intro fv
      rw [heapStackFold, List.foldlM_cons]
      obtain ⟨fv', hfv'⟩ := Option.isSome_iff_exists.mp
        (heapLinesFold_isSome idx v hidx loc.line fv)
      simp only [hfv', Option.bind_eq_bind, Option.some_bind]
      exact ih fv'

theorem heapSampleStep_isSome (I : HeapIdxs) (acc : HeapAcc) (s : Sample)
    (hidx : I.allocSpace < 0 ∨ I.allocSpace.toNat < s.value.length) :
    (heapSampleStep I acc s).isSome := by
  unfold heapSampleStep
  by_cases hl : 0 < s.location.length
  · simp only [if_pos hl, Option.isSome_map']
    exact heapStackFold_isSome _ _ hidx _ _
  · simp [if_neg hl]

theorem heapSamplesFold_isSome (I : HeapIdxs) :
    ∀ (samples : List Sample) (acc : HeapAcc),
      (∀ s ∈ samples, I.allocSpace < 0 ∨ I.allocSpace.toNat < s.value.length) →
      (samples.foldlM (heapSampleStep I) acc).isSome := by
  intro samples
  induction samples with
  | nil => intro acc _; simp
  | cons s rest ih =>
      intro acc h
      rw [List.foldlM_cons]
      obtain ⟨acc', ha⟩ := Option.isSome_iff_exists.mp
        (heapSampleStep_isSome I acc s (h s (List.mem_cons_self _ _)))
      simp only [ha, Option.bind_eq_bind, Option.some_bind]
      exact ih acc' fun x hx => h x (List.mem_cons_of_mem _ hx)

theorem extractHeapMetrics_isSome (p : Profile)
    (hv : ∀ s ∈ p.sample, s.value.length = p.sampleType.length) :
    (extractHeapMetrics p).isSome := by
  have hcond : ∀ s ∈ p.sample, (heapIdxs p.sampleType).allocSpace < 0 ∨
      (heapIdxs p.sampleType).allocSpace.toNat < s.value.length := by
    intro s hs
    by_cases h0 : (heapIdxs p.sampleType).allocSpace < 0
    · exact Or.inl h0
    · have hlt := heapIdxs_allocSpace_lt p.sampleType
      have hl := hv s hs
      right
      omega
  unfold extractHeapMetrics
  rw [Option.isSome_map']
  exact heapSamplesFold_isSome (heapIdxs p.sampleType) p.sample ⟨0, 0, 0, 0, []⟩ hcond

/-- C1: on every decoded profile — the pprof decoder guarantees each
sample carries exactly one value per sample-type descriptor — the
extraction pipeline completes without failing: the one unguarded value
access (in the heap extractor's attribution loop) is always in bounds,
and every other absent dimension contributes 0 by the extractors'
guards, so the decode step remains the only failure point of profile
ingestion. -/
theorem Parse_isSome (p : Profile)
    (hv : ∀ s ∈ p.sample, s.value.length = p.sampleType.length) :
    (Parse p).isSome ∧ (extractHeapMetrics p).isSome := by
  have hh := extractHeapMetrics_isSome p hv
  refine ⟨?_, hh⟩
  obtain ⟨hm, hhm⟩ := Option.isSome_iff_exists.mp hh
  cases ht : detectProfileType p.sampleType <;> simp [Parse, ht, hhm]

/-- C1, witness: a heap profile whose single sample has one value per
descriptor is extracted successfully. -/
theorem Parse_isSome_witness :
    (∀ s ∈ (Profile.mk [⟨"alloc_space", "bytes"⟩] [⟨[7], [⟨[⟨some "f"⟩]⟩]⟩] 0).sample,
      s.value.length
        = (Profile.mk [⟨"alloc_space", "bytes"⟩] [⟨[7], [⟨[⟨some "f"⟩]⟩]⟩] 0).sampleType.length) ∧
    ((Parse (Profile.mk [⟨"alloc_space", "bytes"⟩] [⟨[7], [⟨[⟨some "f"⟩]⟩]⟩] 0)).isSome ∧
      (extractHeapMetrics
        (Profile.mk [⟨"alloc_space", "bytes"⟩] [⟨[7], [⟨[⟨some "f"⟩]⟩]⟩] 0)).isSome) :=
  ⟨by decide, Parse_isSome _ (by decide)⟩

end Perfkit
